import Mathlib

/-!
# Verification of the crypto_trader signal handler

A shallow embedding of the signal-driven rebalancing engine in
`crypto_trader`: the webhook `handler` (package `main`), the SQLite-backed
state/ledger store (package `db`), and the order-placement response checks
and size-precision derivation of the OKX client (package `okx`).

Modelling conventions:
* Go `float64` quantities (balances, prices, sizes, lot steps) are embedded
  as exact rationals `ℚ`; Go's `int(x)` float-to-int conversion (truncation
  toward zero) is `truncQ`.
* The external exchange is an explicit environment `Env` recording the
  results the handler would observe from each remote call (a `none`/`Option`
  failure marks a transport-level error return).  Prices are read through
  `Env.price` during signal processing and `Env.priceAfter` during the
  post-order revaluation, matching the two generations of HTTP fetches.
* The SQLite store is a value `DB`: one row per ticker (`DB.states`), the
  append-only transaction log (`DB.txns`) and account-value samples
  (`DB.accountValues`).
* The handler result `HOut` carries the HTTP response, the final store, and
  the trace of `PlaceOrder` submissions made to the exchange, in order.
-/

/-- The inbound webhook payload (`Alert` in the Go source). -/
structure Alert where
  ticker : String
  signal : String
  deriving DecidableEq, Repr

/-- One row of the `states` table: current signal and position of a ticker. -/
structure DBRow where
  signal : String
  position : ℚ
  deriving DecidableEq, Repr

/-- One row of the append-only `transactions` table
(`db.RecordTransaction` arguments). -/
structure Txn where
  ticker : String
  signal : String
  amount : ℚ
  price : ℚ
  usdtValue : ℚ
  deriving DecidableEq, Repr

/-- The SQLite store: per-ticker state rows, transaction log,
account-value samples. -/
structure DB where
  states : String → DBRow
  txns : List Txn
  accountValues : List ℚ

/-- One `client.PlaceOrder(ticker, side, size, lotSize)` submission. -/
structure OrderReq where
  ticker : String
  side : String
  sz : ℚ
  lot : ℚ
  deriving DecidableEq, Repr

/-- The exchange as observed by one handler run: results of each remote
call the handler makes, in program order.  `none` models the Go call
returning a non-nil error. -/
structure Env where
  /-- `client.GetSpotBalance()` before the order. -/
  spotBalance : Option ℚ
  /-- `client.GetOpenOrders(ticker)`. -/
  openOrders : Option Bool
  /-- `client.GetPositions()` before the order; inner `Option` is map
  membership (`pos, ok := positions[pair]`). -/
  positions : Option (String → Option ℚ)
  /-- `getCurrentPrice` during signal processing (0 signals failure). -/
  price : String → ℚ
  /-- The in-memory `lotSizes` map filled by `fetchLotSizes`. -/
  lotSizes : String → Option ℚ
  /-- Whether `client.PlaceOrder` with the given side and size succeeds. -/
  placeOrder : String → ℚ → Bool
  /-- `client.GetPositions()` re-queried after a placed order. -/
  positionsAfter : Option (String → Option ℚ)
  /-- `client.GetSpotBalance()` re-queried after a placed order
  (the Go variable is 0 when the call errors). -/
  spotBalanceAfter : Option ℚ
  /-- `getCurrentPrice` during the post-order account revaluation. -/
  priceAfter : String → ℚ

/-- The HTTP response written by the handler. -/
inductive Resp where
  | ok (msg : String)
  | err (status : ℕ) (msg : String)
  deriving DecidableEq, Repr

/-- Result of one handler run: response, final store, and the ordered trace
of order submissions sent to the exchange. -/
structure HOut where
  resp : Resp
  db : DB
  orders : List OrderReq

/-- The compiled-in instrument list (`defaultPairs` in the Go source). -/
def defaultPairs : List String :=
  ["BTCUSDT", "TRXUSDT", "SUIUSDT", "SOLUSDT", "NEARUSDT", "TONUSDT", "ICPUSDT"]

/-- `isValidTicker`: membership in the configured pair list. -/
def isValidTicker (t : String) : Bool := defaultPairs.contains t

/-- Go's `int(x)` conversion on `float64`: truncation toward zero. -/
def truncQ (q : ℚ) : ℤ := if 0 ≤ q then ⌊q⌋ else ⌈q⌉

/-- `size = float64(int(size/lotSize)) * lotSize`, guarded by
`lotSize > 0` as in the source. -/
def roundToLot (lot size : ℚ) : ℚ :=
  if 0 < lot then (truncQ (size / lot) : ℚ) * lot else size

/-- The fixed `minOrderValueUSDT := 10.0`. -/
def minOrderValueUSDT : ℚ := 10

/-- Raise `size` to `minOrderValueUSDT / price` when its notional is below
the minimum order value (lines shared by the buy and sell paths). -/
def applyMinNotional (price size : ℚ) : ℚ :=
  if size < minOrderValueUSDT / price then minOrderValueUSDT / price else size

/-- The full size normalization applied before submission: minimum-notional
raise, then round down to a lot-step multiple. -/
def normalizeSize (price lot size : ℚ) : ℚ :=
  roundToLot lot (applyMinNotional price size)

/-- Go's `math.Mod(q, 1)`: the fractional part, with the sign of `q`. -/
def gomod1 (q : ℚ) : ℚ := q - (truncQ q : ℚ)

/-- The handler's post-rounding validation
`lotSize > 0 && math.Abs(math.Mod(size/lotSize, 1)) > 1e-10`. -/
def lotCheckFails (lot size : ℚ) : Bool :=
  decide (0 < lot) && decide (1 / 10000000000 < |gomod1 (size / lot)|)

/-- `totalCryptoValue`: value of the held positions over all configured
pairs, skipping pairs absent from the positions map. -/
def totalCryptoValue (positions : String → Option ℚ) (price : String → ℚ) : ℚ :=
  (defaultPairs.map (fun pair =>
    match positions pair with
    | some pos => pos * price pair
    | none => 0)).sum

/-- `buyCount`: how many configured pairs have stored signal `"buy"`. -/
def buyCountOf (d : DB) : ℕ :=
  (defaultPairs.filter (fun pair => (d.states pair).signal = "buy")).length

/-- Lot-size lookup with the handler's fallback: a missing entry or one
outside `[0.0001, 1]` is replaced by the default `0.1`. -/
def lotSizeFor (env : Env) (t : String) : ℚ :=
  match env.lotSizes t with
  | some l => if l < 1 / 10000 ∨ 1 < l then 1 / 10 else l
  | none => 1 / 10

/-- Mutable state threaded through the order-placing section of the
handler: the working `size`, the orders submitted so far, the transactions
recorded so far, whether the Go `err` variable is non-nil, and the
`orderPlaced` flag. -/
structure Stage where
  size : ℚ
  orders : List OrderReq
  txns : List Txn
  errSet : Bool
  orderPlaced : Bool
  deriving DecidableEq, Repr

/-- Outcome of the buy/sell section: either an early `http.Error` return
with the given message, or fall-through to the epilogue. -/
inductive StageOut where
  | httpErr (msg : String) (s : Stage)
  | done (s : Stage)
  deriving DecidableEq, Repr

/-- The raw-size computation of the buy branch (`buyCount == 0` full
allocation; otherwise the equal-split target, with the inline excess-sell
when the current position exceeds the target). -/
def buyRawStage (env : Env) (t : String)
    (spotBalance availableFunds price lot pos : ℚ) (n : ℕ) : Stage :=
  if n = 0 then
    ⟨spotBalance / price, [], [], false, false⟩
  else
    let targetPos := availableFunds / ((n : ℚ) + 1) / price
    if 0 < pos then
      if targetPos < pos then
        let size := pos - targetPos
        if env.placeOrder "sell" size then
          ⟨size, [⟨t, "sell", size, lot⟩],
            [⟨t, "sell", size, price, size * price⟩], false, true⟩
        else
          ⟨size, [⟨t, "sell", size, lot⟩], [], true, false⟩
      else
        ⟨0, [], [], false, false⟩
    else
      ⟨targetPos, [], [], false, false⟩

/-- The shared tail of the buy branch: minimum-notional raise, lot
rounding, funds check, lot-multiple validation, and the buy submission
when the final size is positive. -/
def buyFinish (env : Env) (t : String) (spotBalance price lot : ℚ)
    (s : Stage) : StageOut :=
  let size := normalizeSize price lot s.size
  if spotBalance < size * price then .httpErr "Insufficient funds" s
  else if lotCheckFails lot size then .httpErr "Invalid order size" s
  else if 0 < size then
    if env.placeOrder "buy" size then
      .done ⟨size, s.orders ++ [⟨t, "buy", size, lot⟩],
        s.txns ++ [⟨t, "buy", size, price, size * price⟩], false, true⟩
    else
      .done ⟨size, s.orders ++ [⟨t, "buy", size, lot⟩], s.txns, true, s.orderPlaced⟩
  else
    .done ⟨size, s.orders, s.txns, s.errSet, s.orderPlaced⟩

/-- The complete buy branch of the handler. -/
def buyStage (env : Env) (t : String)
    (spotBalance availableFunds price lot pos : ℚ) (n : ℕ) : StageOut :=
  buyFinish env t spotBalance price lot
    (buyRawStage env t spotBalance availableFunds price lot pos n)

/-- The sell branch: when the stored position is positive, normalize it and
sell it all (no funds check, no positivity check before submission). -/
def sellStage (env : Env) (t : String) (price lot pos : ℚ) : StageOut :=
  if 0 < pos then
    let size := normalizeSize price lot pos
    if lotCheckFails lot size then
      .httpErr "Invalid order size" ⟨size, [], [], false, false⟩
    else if env.placeOrder "sell" size then
      .done ⟨size, [⟨t, "sell", size, lot⟩],
        [⟨t, "sell", size, price, size * price⟩], false, true⟩
    else
      .done ⟨size, [⟨t, "sell", size, lot⟩], [], true, false⟩
  else
    .done ⟨0, [], [], false, false⟩

/-- Append newly recorded transactions to the store. -/
def addTxns (d : DB) (ts : List Txn) : DB :=
  { d with txns := d.txns ++ ts }

/-- `db.UpdateState`: overwrite the row of one ticker. -/
def setState (d : DB) (t : String) (row : DBRow) : DB :=
  { d with states := fun s => if s = t then row else d.states s }

/-- The post-order balance re-query: the Go variable holds 0 when the call
errors. -/
def spotAfter (env : Env) : ℚ := env.spotBalanceAfter.getD 0

/-- The handler epilogue: surface a pending `PlaceOrder` error; otherwise,
if an order was placed, re-query positions (updating the state row only on
success), re-query the balance, and record an account-value sample. -/
def epilogue (env : Env) (d : DB) (alert : Alert) (s : Stage) : HOut :=
  let d1 := addTxns d s.txns
  if s.errSet then ⟨.err 500 "Failed to place order", d1, s.orders⟩
  else if s.orderPlaced then
    match env.positionsAfter with
    | none =>
      -- positions re-query failed: state row untouched, positions map nil
      ⟨.ok "Alert processed",
        { d1 with accountValues := d1.accountValues ++ [spotAfter env] }, s.orders⟩
    | some ps2 =>
      let d2 := setState d1 alert.ticker ⟨alert.signal, (ps2 alert.ticker).getD 0⟩
      let total := spotAfter env + totalCryptoValue ps2 env.priceAfter
      ⟨.ok "Alert processed",
        { d2 with accountValues := d2.accountValues ++ [total] }, s.orders⟩
  else
    ⟨.ok "Alert processed", d1, s.orders⟩

/-- The body of the handler from the positions fetch onward: price fetch,
holdings valuation, buy count, lot-size lookup, then the signal branch and
epilogue. -/
def handlerCore (env : Env) (d : DB) (alert : Alert)
    (spotBalance : ℚ) (positions : String → Option ℚ) : HOut :=
  let price := env.price alert.ticker
  if price = 0 then ⟨.err 500 "Failed to get price", d, []⟩
  else
    let availableFunds := spotBalance + totalCryptoValue positions env.price
    let n := buyCountOf d
    let lot := lotSizeFor env alert.ticker
    let st :=
      if alert.signal = "buy" then
        buyStage env alert.ticker spotBalance availableFunds price lot
          (d.states alert.ticker).position n
      else if alert.signal = "sell" then
        sellStage env alert.ticker price lot (d.states alert.ticker).position
      else
        .done ⟨0, [], [], false, false⟩
    match st with
    | .httpErr msg s => ⟨.err 500 msg, addTxns d s.txns, s.orders⟩
    | .done s => epilogue env d alert s

/-- The handler on a decoded alert with a configured ticker: deduplication
guard, balance fetch and floor, open-orders check, positions fetch, then
`handlerCore`. -/
def handlerValid (env : Env) (d : DB) (alert : Alert) : HOut :=
  if (d.states alert.ticker).signal = alert.signal then
    ⟨.ok "Alert processed (no action)", d, []⟩
  else
    match env.spotBalance with
    | none => ⟨.err 500 "Failed to get balance", d, []⟩
    | some spotBalance =>
      if spotBalance < 2877 / 100 then
        ⟨.err 500 "Insufficient available balance", d, []⟩
      else
        match env.openOrders with
        | none => ⟨.err 500 "Failed to check open orders", d, []⟩
        | some true => ⟨.err 500 "Open orders exist", d, []⟩
        | some false =>
          match env.positions with
          | none => ⟨.err 500 "Failed to get positions", d, []⟩
          | some positions => handlerCore env d alert spotBalance positions

/-- The webhook handler.  `body` is the decoded JSON payload (`none` for a
malformed body). -/
def handler (env : Env) (d : DB) (body : Option Alert) : HOut :=
  match body with
  | none => ⟨.err 400 "Invalid JSON payload", d, []⟩
  | some alert =>
    if isValidTicker alert.ticker = false then
      ⟨.err 400 "Invalid ticker", d, []⟩
    else
      handlerValid env d alert

/-!
## OKX client: size precision and order-placement response checks
(package `okx`, the client used by the current handler)
-/

/-- The fractional digits of `fmt.Sprintf("%f", q)`: `%f` renders with a
fixed six digits after the decimal point, so this is the decimal expansion
of `|q|` rounded to six places, taken modulo `10^6` and zero-padded on the
left to exactly six digits (most significant first). -/
def fracDigits6 (q : ℚ) : List ℕ :=
  let k : ℕ := ((⌊|q| * 1000000 + 1 / 2⌋ : ℤ) % 1000000).toNat
  List.replicate (6 - (Nat.digits 10 k).length) 0 ++ (Nat.digits 10 k).reverse

/-- `getPrecision`: 0 for a zero lot size; otherwise the number of
characters after the decimal point of `fmt.Sprintf("%f", lotSize)`,
i.e. the length of `fracDigits6`. -/
def getPrecision (lotSize : ℚ) : ℕ :=
  if lotSize = 0 then 0 else (fracDigits6 lotSize).length

/-- One element of the order response's `data` array. -/
structure OrderAck where
  ordId : String
  sCode : String
  sMsg : String
  deriving DecidableEq, Repr

/-- The decoded order response envelope. -/
structure OrderEnvelope where
  code : String
  msg : String
  data : List OrderAck
  deriving DecidableEq, Repr

/-- How `PlaceOrder` classifies a decoded response. `panicEmptyData` marks
the branch where the guard fires with an empty `data` array and the Go
code indexes `response.Data[0]` while formatting the error. -/
inductive PlaceResult where
  | ok
  | httpError (status : ℕ)
  | apiError (sCode sMsg : String)
  | panicEmptyData
  deriving DecidableEq, Repr

/-- `sCode` of the first `data` element (what the source inspects). -/
def firstSCode (resp : OrderEnvelope) : String :=
  (resp.data.headD ⟨"", "", ""⟩).sCode

/-- The response handling of `PlaceOrder`: non-200 status is an error;
otherwise the guard `response.Code != "0" || len(response.Data) == 0 ||
response.Data[0].SCode != "0"` rejects, reporting the first element's
sub-code (and panicking if `data` is empty). -/
def placeOrderResult (status : ℕ) (resp : OrderEnvelope) : PlaceResult :=
  if status ≠ 200 then .httpError status
  else if resp.code ≠ "0" ∨ resp.data = [] ∨ firstSCode resp ≠ "0" then
    match resp.data with
    | [] => .panicEmptyData
    | a :: _ => .apiError a.sCode a.sMsg
  else .ok

/-!
## Helper lemmas: truncation, lot rounding, minimum notional
-/

theorem truncQ_intCast (k : ℤ) : truncQ (k : ℚ) = k := by
  unfold truncQ
  split <;> simp

theorem truncQ_of_nonneg {q : ℚ} (h : 0 ≤ q) : truncQ q = ⌊q⌋ := by
  unfold truncQ
  rw [if_pos h]

theorem roundToLot_div {lot : ℚ} (hlot : 0 < lot) (s : ℚ) :
    roundToLot lot s / lot = (truncQ (s / lot) : ℚ) := by
  unfold roundToLot
  rw [if_pos hlot, mul_div_cancel_right₀ _ (ne_of_gt hlot)]

theorem lotCheckFails_roundToLot {lot : ℚ} (hlot : 0 < lot) (s : ℚ) :
    lotCheckFails lot (roundToLot lot s) = false := by
  unfold lotCheckFails gomod1
  rw [roundToLot_div hlot, truncQ_intCast]
  norm_num

theorem lotCheckFails_normalizeSize {lot : ℚ} (hlot : 0 < lot) (p s : ℚ) :
    lotCheckFails lot (normalizeSize p lot s) = false :=
  lotCheckFails_roundToLot hlot _

theorem roundToLot_eq_floor {lot : ℚ} (hlot : 0 < lot) {s : ℚ} (hs : 0 ≤ s) :
    roundToLot lot s = (⌊s / lot⌋ : ℚ) * lot := by
  unfold roundToLot
  rw [if_pos hlot, truncQ_of_nonneg (div_nonneg hs hlot.le)]

theorem roundToLot_le {lot : ℚ} (hlot : 0 < lot) {s : ℚ} (hs : 0 ≤ s) :
    roundToLot lot s ≤ s := by
  rw [roundToLot_eq_floor hlot hs]
  calc (⌊s / lot⌋ : ℚ) * lot ≤ s / lot * lot :=
        mul_le_mul_of_nonneg_right (Int.floor_le _) hlot.le
    _ = s := div_mul_cancel₀ _ (ne_of_gt hlot)

theorem roundToLot_isMultiple {lot : ℚ} (hlot : 0 < lot) {s : ℚ} (hs : 0 ≤ s) :
    ∃ k : ℤ, roundToLot lot s = (k : ℚ) * lot :=
  ⟨⌊s / lot⌋, roundToLot_eq_floor hlot hs⟩

theorem roundToLot_maximal {lot : ℚ} (hlot : 0 < lot) {s : ℚ} (hs : 0 ≤ s)
    (k : ℤ) (hk : (k : ℚ) * lot ≤ s) : (k : ℚ) * lot ≤ roundToLot lot s := by
  rw [roundToLot_eq_floor hlot hs]
  have hk2 : (k : ℚ) ≤ s / lot := (le_div_iff₀ hlot).mpr hk
  exact mul_le_mul_of_nonneg_right (by exact_mod_cast Int.le_floor.mpr (by exact_mod_cast hk2)) hlot.le

theorem sub_lot_lt_roundToLot {lot : ℚ} (hlot : 0 < lot) {s : ℚ} (hs : 0 ≤ s) :
    s - lot < roundToLot lot s := by
  rw [roundToLot_eq_floor hlot hs]
  have h1 : s / lot - 1 < (⌊s / lot⌋ : ℚ) := Int.sub_one_lt_floor _
  calc s - lot = (s / lot - 1) * lot := by
        field_simp
    _ < (⌊s / lot⌋ : ℚ) * lot := mul_lt_mul_of_pos_right h1 hlot

theorem minNotional_le_applyMinNotional (price s : ℚ) :
    minOrderValueUSDT / price ≤ applyMinNotional price s := by
  unfold applyMinNotional
  split
  · exact le_refl _
  · exact le_of_not_lt (by assumption)

theorem applyMinNotional_nonneg {price : ℚ} (hp : 0 < price) (s : ℚ) :
    0 ≤ applyMinNotional price s :=
  le_trans (div_nonneg (by norm_num [minOrderValueUSDT]) hp.le)
    (minNotional_le_applyMinNotional price s)

/-- The round-down loses less than one lot step relative to the raised
size, so the submitted notional exceeds the minimum order value minus one
lot step's worth of notional. -/
theorem normalizeSize_notional_gt {price lot : ℚ} (hp : 0 < price)
    (hlot : 0 < lot) (s : ℚ) :
    minOrderValueUSDT - lot * price < normalizeSize price lot s * price := by
  unfold normalizeSize
  have h1 : applyMinNotional price s - lot < roundToLot lot (applyMinNotional price s) :=
    sub_lot_lt_roundToLot hlot (applyMinNotional_nonneg hp s)
  have h2 : minOrderValueUSDT / price - lot ≤ applyMinNotional price s - lot := by
    have := minNotional_le_applyMinNotional price s
    linarith
  have h3 : (minOrderValueUSDT / price - lot) * price < roundToLot lot (applyMinNotional price s) * price :=
    mul_lt_mul_of_pos_right (lt_of_le_of_lt h2 h1) hp
  calc minOrderValueUSDT - lot * price = (minOrderValueUSDT / price - lot) * price := by
        rw [sub_mul, div_mul_cancel₀ _ (ne_of_gt hp)]
    _ < _ := h3

theorem lotSizeFor_pos (env : Env) (t : String) : 0 < lotSizeFor env t := by
  unfold lotSizeFor
  split
  · split
    · norm_num
    · rename_i l h
      push_neg at h
      linarith [h.1]
  · norm_num

/-!
## Helper lemmas: symbolic evaluation of the handler paths
-/

/-- The orders submitted in a `StageOut`. -/
def stageOrders : StageOut → List OrderReq
  | .httpErr _ s => s.orders
  | .done s => s.orders

theorem epilogue_orders (env : Env) (d : DB) (a : Alert) (s : Stage) :
    (epilogue env d a s).orders = s.orders := by
  unfold epilogue
  split_ifs
  · rfl
  · cases hpa : env.positionsAfter <;> simp [hpa]
  · rfl

theorem handler_valid_some (env : Env) (d : DB) (a : Alert)
    (hv : isValidTicker a.ticker = true) :
    handler env d (some a) = handlerValid env d a := by
  simp [handler, hv]

theorem handlerValid_dedup (env : Env) (d : DB) (a : Alert)
    (hdup : (d.states a.ticker).signal = a.signal) :
    handlerValid env d a = ⟨.ok "Alert processed (no action)", d, []⟩ := by
  simp [handlerValid, hdup]

theorem handlerValid_proceed (env : Env) (d : DB) (a : Alert) (b : ℚ)
    (ps : String → Option ℚ)
    (hdup : ¬ (d.states a.ticker).signal = a.signal)
    (hb : env.spotBalance = some b) (hfloor : ¬ b < 2877 / 100)
    (hoo : env.openOrders = some false) (hps : env.positions = some ps) :
    handlerValid env d a = handlerCore env d a b ps := by
  simp only [handlerValid, if_neg hdup, hb, if_neg hfloor, hoo, hps]

theorem handlerCore_buy (env : Env) (d : DB) (a : Alert) (b : ℚ)
    (ps : String → Option ℚ) (hsig : a.signal = "buy")
    (hp : ¬ env.price a.ticker = 0) :
    handlerCore env d a b ps =
      match buyStage env a.ticker b (b + totalCryptoValue ps env.price)
          (env.price a.ticker) (lotSizeFor env a.ticker)
          (d.states a.ticker).position (buyCountOf d) with
      | .httpErr msg s => ⟨.err 500 msg, addTxns d s.txns, s.orders⟩
      | .done s => epilogue env d a s := by
  simp [handlerCore, hp, hsig]

theorem handlerCore_sell (env : Env) (d : DB) (a : Alert) (b : ℚ)
    (ps : String → Option ℚ) (hsig : a.signal = "sell")
    (hp : ¬ env.price a.ticker = 0) :
    handlerCore env d a b ps =
      match sellStage env a.ticker (env.price a.ticker)
          (lotSizeFor env a.ticker) (d.states a.ticker).position with
      | .httpErr msg s => ⟨.err 500 msg, addTxns d s.txns, s.orders⟩
      | .done s => epilogue env d a s := by
  simp [handlerCore, hp, hsig]

theorem buyRawStage_first (env : Env) (t : String) (b af p lot pos : ℚ) :
    buyRawStage env t b af p lot pos 0 = ⟨b / p, [], [], false, false⟩ := by
  simp [buyRawStage]

theorem buyRawStage_zero_pos (env : Env) (t : String) (b af p lot pos : ℚ)
    (n : ℕ) (hn : ¬ n = 0) (hpos : ¬ 0 < pos) :
    buyRawStage env t b af p lot pos n =
      ⟨af / ((n : ℚ) + 1) / p, [], [], false, false⟩ := by
  simp [buyRawStage, hn, hpos]

theorem buyRawStage_below_target (env : Env) (t : String) (b af p lot pos : ℚ)
    (n : ℕ) (hn : ¬ n = 0) (hpos : 0 < pos)
    (hnotex : ¬ af / ((n : ℚ) + 1) / p < pos) :
    buyRawStage env t b af p lot pos n = ⟨0, [], [], false, false⟩ := by
  simp [buyRawStage, hn, hpos, hnotex]

theorem buyRawStage_excess (env : Env) (t : String) (b af p lot pos : ℚ)
    (n : ℕ) (hn : ¬ n = 0) (hpos : 0 < pos)
    (hex : af / ((n : ℚ) + 1) / p < pos) :
    (buyRawStage env t b af p lot pos n).size = pos - af / ((n : ℚ) + 1) / p ∧
    (buyRawStage env t b af p lot pos n).orders =
      [⟨t, "sell", pos - af / ((n : ℚ) + 1) / p, lot⟩] := by
  simp only [buyRawStage, if_neg hn, if_pos hpos, if_pos hex]
  split <;> simp

theorem buyFinish_happy (env : Env) (t : String) (b p lot : ℚ) (s : Stage)
    (hlot : 0 < lot)
    (hfund : ¬ b < normalizeSize p lot s.size * p)
    (hszpos : 0 < normalizeSize p lot s.size)
    (hplace : env.placeOrder "buy" (normalizeSize p lot s.size) = true) :
    buyFinish env t b p lot s =
      .done ⟨normalizeSize p lot s.size,
        s.orders ++ [⟨t, "buy", normalizeSize p lot s.size, lot⟩],
        s.txns ++ [⟨t, "buy", normalizeSize p lot s.size, p,
          normalizeSize p lot s.size * p⟩], false, true⟩ := by
  simp [buyFinish, hfund, lotCheckFails_normalizeSize hlot, hszpos, hplace]

theorem sellStage_happy (env : Env) (t : String) (p lot pos : ℚ)
    (hpos : 0 < pos) (hlot : 0 < lot)
    (hplace : env.placeOrder "sell" (normalizeSize p lot pos) = true) :
    sellStage env t p lot pos =
      .done ⟨normalizeSize p lot pos, [⟨t, "sell", normalizeSize p lot pos, lot⟩],
        [⟨t, "sell", normalizeSize p lot pos, p, normalizeSize p lot pos * p⟩],
        false, true⟩ := by
  simp [sellStage, hpos, lotCheckFails_normalizeSize hlot, hplace]

theorem epilogue_placed (env : Env) (d : DB) (a : Alert) (s : Stage)
    (hE : s.errSet = false) (hP : s.orderPlaced = true)
    (ps2 : String → Option ℚ) (hpa : env.positionsAfter = some ps2) :
    epilogue env d a s =
      ⟨.ok "Alert processed",
        ⟨fun x => if x = a.ticker then ⟨a.signal, (ps2 a.ticker).getD 0⟩
            else d.states x,
          d.txns ++ s.txns,
          d.accountValues ++ [spotAfter env + totalCryptoValue ps2 env.priceAfter]⟩,
        s.orders⟩ := by
  simp [epilogue, hE, hP, hpa, addTxns, setState]

theorem buyRawStage_sides (env : Env) (t : String) (b af p lot pos : ℚ)
    (n : ℕ) : ∀ o ∈ (buyRawStage env t b af p lot pos n).orders,
      o.side = "sell" := by
  intro o ho
  simp only [buyRawStage] at ho
  split_ifs at ho <;> simp_all

theorem buyFinish_buy_le (env : Env) (t : String) (b p lot : ℚ) (s : Stage)
    (hs : ∀ o ∈ s.orders, o.side = "sell") :
    ∀ o ∈ stageOrders (buyFinish env t b p lot s),
      o.side = "buy" → o.sz * p ≤ b := by
  intro o ho hside
  unfold buyFinish at ho
  by_cases h1 : b < normalizeSize p lot s.size * p
  · rw [if_pos h1] at ho
    simp only [stageOrders] at ho
    have := hs o ho
    simp [hside] at this
  · rw [if_neg h1] at ho
    push_neg at h1
    by_cases h2 : lotCheckFails lot (normalizeSize p lot s.size) = true
    · rw [if_pos h2] at ho
      simp only [stageOrders] at ho
      have := hs o ho
      simp [hside] at this
    · rw [if_neg h2] at ho
      by_cases h3 : 0 < normalizeSize p lot s.size
      · rw [if_pos h3] at ho
        by_cases h4 : env.placeOrder "buy" (normalizeSize p lot s.size) = true
        · rw [if_pos h4] at ho
          simp only [stageOrders, List.mem_append, List.mem_singleton] at ho
          rcases ho with ho | ho
          · have := hs o ho
            simp [hside] at this
          · subst ho
            exact h1
        · rw [if_neg h4] at ho
          simp only [stageOrders, List.mem_append, List.mem_singleton] at ho
          rcases ho with ho | ho
          · have := hs o ho
            simp [hside] at this
          · subst ho
            exact h1
      · rw [if_neg h3] at ho
        simp only [stageOrders] at ho
        have := hs o ho
        simp [hside] at this

theorem buyStage_buy_le (env : Env) (t : String) (b af p lot pos : ℚ)
    (n : ℕ) : ∀ o ∈ stageOrders (buyStage env t b af p lot pos n),
      o.side = "buy" → o.sz * p ≤ b :=
  buyFinish_buy_le env t b p lot _ (buyRawStage_sides env t b af p lot pos n)

theorem sellStage_sides (env : Env) (t : String) (p lot pos : ℚ) :
    ∀ o ∈ stageOrders (sellStage env t p lot pos), o.side = "sell" := by
  intro o ho
  simp only [sellStage] at ho
  split_ifs at ho <;> simp_all [stageOrders]

theorem handlerCore_buy_le (env : Env) (d : DB) (a : Alert) (b : ℚ)
    (ps : String → Option ℚ) :
    ∀ o ∈ (handlerCore env d a b ps).orders, o.side = "buy" →
      o.sz * env.price a.ticker ≤ b := by
  intro o ho hside
  simp only [handlerCore] at ho
  by_cases hp : env.price a.ticker = 0
  · rw [if_pos hp] at ho
    simp at ho
  · rw [if_neg hp] at ho
    by_cases hbuy : a.signal = "buy"
    · rw [if_pos hbuy] at ho
      cases hst : buyStage env a.ticker b (b + totalCryptoValue ps env.price)
          (env.price a.ticker) (lotSizeFor env a.ticker)
          (d.states a.ticker).position (buyCountOf d) with
      | httpErr msg s =>
        rw [hst] at ho
        have := buyStage_buy_le env a.ticker b (b + totalCryptoValue ps env.price)
          (env.price a.ticker) (lotSizeFor env a.ticker)
          (d.states a.ticker).position (buyCountOf d) o
        rw [hst] at this
        exact this ho hside
      | done s =>
        rw [hst] at ho
        simp only [epilogue_orders] at ho
        have := buyStage_buy_le env a.ticker b (b + totalCryptoValue ps env.price)
          (env.price a.ticker) (lotSizeFor env a.ticker)
          (d.states a.ticker).position (buyCountOf d) o
        rw [hst] at this
        exact this ho hside
    · rw [if_neg hbuy] at ho
      by_cases hsell : a.signal = "sell"
      · rw [if_pos hsell] at ho
        cases hst : sellStage env a.ticker (env.price a.ticker)
            (lotSizeFor env a.ticker) (d.states a.ticker).position with
        | httpErr msg s =>
          rw [hst] at ho
          have := sellStage_sides env a.ticker (env.price a.ticker)
            (lotSizeFor env a.ticker) (d.states a.ticker).position o
          rw [hst] at this
          have := this ho
          simp [hside] at this
        | done s =>
          rw [hst] at ho
          simp only [epilogue_orders] at ho
          have := sellStage_sides env a.ticker (env.price a.ticker)
            (lotSizeFor env a.ticker) (d.states a.ticker).position o
          rw [hst] at this
          have := this ho
          simp [hside] at this
      · rw [if_neg hsell] at ho
        simp [epilogue_orders, epilogue, addTxns] at ho

theorem handler_buy_le (env : Env) (d : DB) (a : Alert) (b : ℚ)
    (hb : env.spotBalance = some b) :
    ∀ o ∈ (handler env d (some a)).orders, o.side = "buy" →
      o.sz * env.price a.ticker ≤ b := by
  intro o ho hside
  simp only [handler] at ho
  by_cases hv : isValidTicker a.ticker = false
  · rw [if_pos hv] at ho
    simp at ho
  · rw [if_neg hv] at ho
    by_cases hdup : (d.states a.ticker).signal = a.signal
    · simp only [handlerValid, if_pos hdup] at ho
      simp at ho
    · simp only [handlerValid, if_neg hdup, hb] at ho
      by_cases hfl : b < 2877 / 100
      · rw [if_pos hfl] at ho
        simp at ho
      · rw [if_neg hfl] at ho
        cases hoo : env.openOrders with
        | none =>
          rw [hoo] at ho
          simp at ho
        | some x =>
          rw [hoo] at ho
          cases x with
          | true => simp at ho
          | false =>
            cases hps : env.positions with
            | none =>
              rw [hps] at ho
              simp at ho
            | some ps =>
              rw [hps] at ho
              exact handlerCore_buy_le env d a b ps o ho hside

/-!
## getPrecision: the derived precision is 6 for every nonzero lot step
-/

theorem fracDigits6_length (q : ℚ) : (fracDigits6 q).length = 6 := by
  unfold fracDigits6
  set k : ℕ := ((⌊|q| * 1000000 + 1 / 2⌋ : ℤ) % 1000000).toNat with hk
  have hklt : k < 1000000 := by
    have h1 : (⌊|q| * 1000000 + 1 / 2⌋ : ℤ) % 1000000 < 1000000 :=
      Int.emod_lt_of_pos _ (by norm_num)
    have h2 : (0 : ℤ) ≤ (⌊|q| * 1000000 + 1 / 2⌋ : ℤ) % 1000000 :=
      Int.emod_nonneg _ (by norm_num)
    omega
  have hlen : (Nat.digits 10 k).length ≤ 6 := by
    rcases Nat.eq_zero_or_pos k with h0 | hpos
    · simp [h0]
    · rw [Nat.digits_len 10 k (by norm_num) (Nat.pos_iff_ne_zero.mp hpos)]
      have hpow : (10 : ℕ) ^ 6 = 1000000 := by norm_num
      have : Nat.log 10 k < 6 :=
        (Nat.lt_pow_iff_log_lt (by norm_num) (Nat.pos_iff_ne_zero.mp hpos)).mp (by omega)
      omega
  simp only [List.length_append, List.length_replicate, List.length_reverse]
  omega

theorem getPrecision_eq_six {q : ℚ} (hq : q ≠ 0) : getPrecision q = 6 := by
  unfold getPrecision
  rw [if_neg hq, fracDigits6_length]

/-!
## Concrete stores and environments used by witnesses and counterexamples
-/

/-- The freshly seeded store: every pair at `sell, position 0`. -/
def db0 : DB := ⟨fun _ => ⟨"sell", 0⟩, [], []⟩

/-- A benign exchange: balance 100, no open orders, flat positions,
price 10 everywhere, lot step 0.1, every order accepted. -/
def env0 : Env :=
  { spotBalance := some 100, openOrders := some false,
    positions := some fun _ => some 0,
    price := fun _ => 10, lotSizes := fun _ => some (1 / 10),
    placeOrder := fun _ _ => true,
    positionsAfter := some fun _ => some 10,
    spotBalanceAfter := some 0, priceAfter := fun _ => 10 }

/-- Store where BTCUSDT holds a bought position of 5. -/
def dbC9 : DB :=
  ⟨fun s => if s = "BTCUSDT" then ⟨"buy", 5⟩ else ⟨"sell", 0⟩, [], []⟩

/-- Exchange with a balance of 10 (below the 28.77 floor) whose
open-orders query would fail if it were ever made. -/
def envC9 : Env :=
  { spotBalance := some 10, openOrders := none,
    positions := some fun _ => some 0,
    price := fun _ => 10, lotSizes := fun _ => some (1 / 10),
    placeOrder := fun _ _ => true,
    positionsAfter := some fun _ => some 0,
    spotBalanceAfter := some 0, priceAfter := fun _ => 10 }

/-!
## Claims
-/

/-- C6: a malformed JSON body, or a ticker outside the configured list, is
rejected with HTTP 400: the handler returns the same fixed error for every
exchange environment (so no exchange call can influence it), hands back
the store unchanged, and submits no order. -/
theorem C6_invalid_input_rejected (env : Env) (d : DB) (a : Alert) :
    handler env d none = ⟨.err 400 "Invalid JSON payload", d, []⟩ ∧
    (isValidTicker a.ticker = false →
      handler env d (some a) = ⟨.err 400 "Invalid ticker", d, []⟩) := by
  refine ⟨rfl, fun hv => ?_⟩
  simp [handler, hv]

/-- Witness for C6 at a concrete unconfigured ticker. -/
theorem C6_witness :
    isValidTicker "DOGEUSDT" = false ∧
    handler env0 db0 (some ⟨"DOGEUSDT", "buy"⟩) =
      ⟨.err 400 "Invalid ticker", db0, []⟩ :=
  ⟨by decide, (C6_invalid_input_rejected env0 db0 ⟨"DOGEUSDT", "buy"⟩).2 (by decide)⟩

/-- C9 (implicit): the fixed 28.77 balance floor is enforced for every
non-duplicate signal on a configured ticker, sell as well as buy: with the
available balance below the floor the handler errors out, with the store
unchanged and no order submitted, and the result is the same whatever the
open-orders field holds (the check happens before open orders are
consulted). -/
theorem C9_balance_floor (env : Env) (d : DB) (a : Alert) (b : ℚ)
    (hv : isValidTicker a.ticker = true)
    (hdup : ¬ (d.states a.ticker).signal = a.signal)
    (hb : env.spotBalance = some b) (hfl : b < 2877 / 100) :
    handler env d (some a) = ⟨.err 500 "Insufficient available balance", d, []⟩ := by
  rw [handler_valid_some env d a hv]
  simp only [handlerValid, if_neg hdup, hb, if_pos hfl]

/-- Witness for C9: a sell-to-flat of an existing bought position of 5 is
blocked by a low quote balance, in an environment whose open-orders query
would fail if it were reached. -/
theorem C9_witness :
    (dbC9.states "BTCUSDT").signal = "buy" ∧
    0 < (dbC9.states "BTCUSDT").position ∧
    envC9.openOrders = none ∧
    handler envC9 dbC9 (some ⟨"BTCUSDT", "sell"⟩) =
      ⟨.err 500 "Insufficient available balance", dbC9, []⟩ := by
  refine ⟨by simp [dbC9], by simp [dbC9], rfl, ?_⟩
  exact C9_balance_floor envC9 dbC9 ⟨"BTCUSDT", "sell"⟩ 10 (by decide)
    (by simp [dbC9]) rfl (by norm_num)

/-- Counterexample to C7 as stated: the lot step 0.1 has one decimal
place, but the derived precision is 6, because `%f` always renders six
fractional digits. -/
theorem C7_counterexample :
    getPrecision (1 / 10) = 6 ∧ getPrecision (1 / 10) ≠ 1 := by
  have h := getPrecision_eq_six (q := 1 / 10) (by norm_num)
  exact ⟨h, by omega⟩

/-- C7 (amended): the precision used to format order sizes is 6 for every
nonzero lot-size step (and 0 for a zero step), not the number of decimal
places of the step: the step is rendered by `%f` with a fixed six
fractional digits and those characters are counted.  (The claim's example
0.000001 → 6 does hold, but 0.1 → 6, not 1.) -/
theorem C7_precision_always_six (q : ℚ) (hq : q ≠ 0) :
    getPrecision q = 6 ∧ getPrecision 0 = 0 :=
  ⟨getPrecision_eq_six hq, by simp [getPrecision]⟩

/-- Witness for C7 at the lot step 0.000001. -/
theorem C7_witness :
    (1 / 1000000 : ℚ) ≠ 0 ∧ getPrecision (1 / 1000000) = 6 :=
  ⟨by norm_num, (C7_precision_always_six (1 / 1000000) (by norm_num)).1⟩

/-- Counterexample to C8 as stated: a 200 response with overall code "0"
whose `data` has a second element with non-zero `sCode` is accepted as a
successful placement — only `data[0].sCode` is inspected, so "any per-item
sub-code non-zero implies error" fails. -/
theorem C8_counterexample :
    placeOrderResult 200
        ⟨"0", "", [⟨"ord1", "0", ""⟩, ⟨"ord2", "51008", "insufficient"⟩]⟩ = .ok ∧
    ∃ a ∈ (⟨"0", "", [⟨"ord1", "0", ""⟩, ⟨"ord2", "51008", "insufficient"⟩]⟩ :
        OrderEnvelope).data, a.sCode ≠ "0" := by
  constructor
  · rfl
  · exact ⟨⟨"ord2", "51008", "insufficient"⟩, by simp, by simp⟩

/-- C8 (amended): order placement fails exactly when the HTTP status is
non-200, or the envelope's top-level code is non-zero, or the `data` array
is empty, or the **first** element's `sCode` is non-zero; in particular an
overall code of "0" with a non-zero first-order `sCode` is still an error.
Per-item sub-codes beyond the first element are not inspected. -/
theorem C8_order_error_iff (status : ℕ) (resp : OrderEnvelope) :
    placeOrderResult status resp ≠ .ok ↔
      (status ≠ 200 ∨ resp.code ≠ "0" ∨ resp.data = [] ∨
        firstSCode resp ≠ "0") := by
  unfold placeOrderResult
  split_ifs with h1 h2
  · simp [h1]
  · cases hd : resp.data with
    | nil => simp
    | cons a l =>
      constructor
      · intro _
        rcases h2 with h2 | h2 | h2
        · exact Or.inr (Or.inl h2)
        · rw [hd] at h2
          simp at h2
        · exact Or.inr (Or.inr (Or.inr h2))
      · intro _
        simp
  · push_neg at h2
    simp [h1, h2.1, h2.2.1, h2.2.2]

/-!
## Happy-path evaluations of the handler
-/

theorem handler_firstBuy (env : Env) (d : DB) (t : String) (b : ℚ)
    (ps ps2 : String → Option ℚ)
    (hv : isValidTicker t = true)
    (hdup : ¬ (d.states t).signal = "buy")
    (hb : env.spotBalance = some b) (hfl : ¬ b < 2877 / 100)
    (hoo : env.openOrders = some false) (hps : env.positions = some ps)
    (hp : ¬ env.price t = 0) (hbc : buyCountOf d = 0)
    (hszpos : 0 < normalizeSize (env.price t) (lotSizeFor env t) (b / env.price t))
    (hfund : ¬ b < normalizeSize (env.price t) (lotSizeFor env t) (b / env.price t) * env.price t)
    (hplace : env.placeOrder "buy"
      (normalizeSize (env.price t) (lotSizeFor env t) (b / env.price t)) = true)
    (hpa : env.positionsAfter = some ps2) :
    handler env d (some ⟨t, "buy"⟩) =
      ⟨.ok "Alert processed",
        ⟨fun x => if x = t then ⟨"buy", (ps2 t).getD 0⟩ else d.states x,
          d.txns ++ [⟨t, "buy",
            normalizeSize (env.price t) (lotSizeFor env t) (b / env.price t),
            env.price t,
            normalizeSize (env.price t) (lotSizeFor env t) (b / env.price t) * env.price t⟩],
          d.accountValues ++ [spotAfter env + totalCryptoValue ps2 env.priceAfter]⟩,
        [⟨t, "buy", normalizeSize (env.price t) (lotSizeFor env t) (b / env.price t),
          lotSizeFor env t⟩]⟩ := by
  have hstage : buyStage env t b (b + totalCryptoValue ps env.price) (env.price t)
      (lotSizeFor env t) (d.states t).position 0 =
      .done ⟨normalizeSize (env.price t) (lotSizeFor env t) (b / env.price t),
        [⟨t, "buy", normalizeSize (env.price t) (lotSizeFor env t) (b / env.price t),
          lotSizeFor env t⟩],
        [⟨t, "buy", normalizeSize (env.price t) (lotSizeFor env t) (b / env.price t),
          env.price t,
          normalizeSize (env.price t) (lotSizeFor env t) (b / env.price t) * env.price t⟩],
        false, true⟩ := by
    unfold buyStage
    rw [buyRawStage_first]
    have h := buyFinish_happy env t b (env.price t) (lotSizeFor env t)
      ⟨b / env.price t, [], [], false, false⟩ (lotSizeFor_pos env t) hfund hszpos hplace
    simpa using h
  rw [handler_valid_some env d ⟨t, "buy"⟩ hv,
      handlerValid_proceed env d ⟨t, "buy"⟩ b ps hdup hb hfl hoo hps,
      handlerCore_buy env d ⟨t, "buy"⟩ b ps rfl hp]
  simp only [hbc]
  rw [hstage]
  show epilogue env d ⟨t, "buy"⟩ _ = _
  rw [epilogue_placed env d ⟨t, "buy"⟩ _ rfl rfl ps2 hpa]

theorem handler_buy_belowTarget (env : Env) (d : DB) (t : String) (b : ℚ)
    (ps ps2 : String → Option ℚ)
    (hv : isValidTicker t = true)
    (hdup : ¬ (d.states t).signal = "buy")
    (hb : env.spotBalance = some b) (hfl : ¬ b < 2877 / 100)
    (hoo : env.openOrders = some false) (hps : env.positions = some ps)
    (hp : ¬ env.price t = 0) (hn : ¬ buyCountOf d = 0)
    (hpos : 0 < (d.states t).position)
    (hnotex : ¬ (b + totalCryptoValue ps env.price) / ((buyCountOf d : ℚ) + 1) /
      env.price t < (d.states t).position)
    (hszpos : 0 < normalizeSize (env.price t) (lotSizeFor env t) 0)
    (hfund : ¬ b < normalizeSize (env.price t) (lotSizeFor env t) 0 * env.price t)
    (hplace : env.placeOrder "buy"
      (normalizeSize (env.price t) (lotSizeFor env t) 0) = true)
    (hpa : env.positionsAfter = some ps2) :
    handler env d (some ⟨t, "buy"⟩) =
      ⟨.ok "Alert processed",
        ⟨fun x => if x = t then ⟨"buy", (ps2 t).getD 0⟩ else d.states x,
          d.txns ++ [⟨t, "buy", normalizeSize (env.price t) (lotSizeFor env t) 0,
            env.price t, normalizeSize (env.price t) (lotSizeFor env t) 0 * env.price t⟩],
          d.accountValues ++ [spotAfter env + totalCryptoValue ps2 env.priceAfter]⟩,
        [⟨t, "buy", normalizeSize (env.price t) (lotSizeFor env t) 0,
          lotSizeFor env t⟩]⟩ := by
  have hstage : buyStage env t b (b + totalCryptoValue ps env.price) (env.price t)
      (lotSizeFor env t) (d.states t).position (buyCountOf d) =
      .done ⟨normalizeSize (env.price t) (lotSizeFor env t) 0,
        [⟨t, "buy", normalizeSize (env.price t) (lotSizeFor env t) 0,
          lotSizeFor env t⟩],
        [⟨t, "buy", normalizeSize (env.price t) (lotSizeFor env t) 0,
          env.price t, normalizeSize (env.price t) (lotSizeFor env t) 0 * env.price t⟩],
        false, true⟩ := by
    unfold buyStage
    rw [buyRawStage_below_target env t b (b + totalCryptoValue ps env.price)
      (env.price t) (lotSizeFor env t) (d.states t).position (buyCountOf d)
      hn hpos hnotex]
    have h := buyFinish_happy env t b (env.price t) (lotSizeFor env t)
      ⟨0, [], [], false, false⟩ (lotSizeFor_pos env t) hfund hszpos hplace
    simpa using h
  rw [handler_valid_some env d ⟨t, "buy"⟩ hv,
      handlerValid_proceed env d ⟨t, "buy"⟩ b ps hdup hb hfl hoo hps,
      handlerCore_buy env d ⟨t, "buy"⟩ b ps rfl hp]
  simp only [hstage]
  rw [epilogue_placed env d ⟨t, "buy"⟩ _ rfl rfl ps2 hpa]

theorem handler_sell_happy (env : Env) (d : DB) (t : String) (b : ℚ)
    (ps ps2 : String → Option ℚ)
    (hv : isValidTicker t = true)
    (hdup : ¬ (d.states t).signal = "sell")
    (hb : env.spotBalance = some b) (hfl : ¬ b < 2877 / 100)
    (hoo : env.openOrders = some false) (hps : env.positions = some ps)
    (hp : ¬ env.price t = 0)
    (hpos : 0 < (d.states t).position)
    (hplace : env.placeOrder "sell"
      (normalizeSize (env.price t) (lotSizeFor env t) (d.states t).position) = true)
    (hpa : env.positionsAfter = some ps2) :
    handler env d (some ⟨t, "sell"⟩) =
      ⟨.ok "Alert processed",
        ⟨fun x => if x = t then ⟨"sell", (ps2 t).getD 0⟩ else d.states x,
          d.txns ++ [⟨t, "sell",
            normalizeSize (env.price t) (lotSizeFor env t) (d.states t).position,
            env.price t,
            normalizeSize (env.price t) (lotSizeFor env t) (d.states t).position * env.price t⟩],
          d.accountValues ++ [spotAfter env + totalCryptoValue ps2 env.priceAfter]⟩,
        [⟨t, "sell",
          normalizeSize (env.price t) (lotSizeFor env t) (d.states t).position,
          lotSizeFor env t⟩]⟩ := by
  have hstage := sellStage_happy env t (env.price t) (lotSizeFor env t)
    (d.states t).position hpos (lotSizeFor_pos env t) hplace
  rw [handler_valid_some env d ⟨t, "sell"⟩ hv,
      handlerValid_proceed env d ⟨t, "sell"⟩ b ps hdup hb hfl hoo hps,
      handlerCore_sell env d ⟨t, "sell"⟩ b ps rfl hp]
  simp only [hstage]
  rw [epilogue_placed env d ⟨t, "sell"⟩ _ rfl rfl ps2 hpa]

/-- C1: whenever the stored signal already equals the incoming one, the
handler succeeds ("no action") with the store unchanged and no order
submitted; hence (second conjunct) on the happy first-buy path — balance
fetched and above the floor, no open orders, positions and price
available, buyCount 0, normalized size positive and affordable, order
accepted, positions re-queried — the first call submits exactly one order
and records exactly one transaction, and an identical second call, under
any exchange environment, is a no-op returning success with no state
change, for a total of one order submission and one transaction row. -/
theorem C1_dedup_idempotent :
    (∀ (env : Env) (d : DB) (a : Alert), isValidTicker a.ticker = true →
      (d.states a.ticker).signal = a.signal →
      handler env d (some a) = ⟨.ok "Alert processed (no action)", d, []⟩) ∧
    (∀ (env env2 : Env) (d : DB) (t : String) (b : ℚ)
        (ps ps2 : String → Option ℚ),
      isValidTicker t = true →
      ¬ (d.states t).signal = "buy" →
      env.spotBalance = some b → ¬ b < 2877 / 100 →
      env.openOrders = some false → env.positions = some ps →
      ¬ env.price t = 0 → buyCountOf d = 0 →
      0 < normalizeSize (env.price t) (lotSizeFor env t) (b / env.price t) →
      ¬ b < normalizeSize (env.price t) (lotSizeFor env t) (b / env.price t) *
        env.price t →
      env.placeOrder "buy"
        (normalizeSize (env.price t) (lotSizeFor env t) (b / env.price t)) = true →
      env.positionsAfter = some ps2 →
      (handler env d (some ⟨t, "buy"⟩)).orders.length = 1 ∧
      (handler env d (some ⟨t, "buy"⟩)).db.txns.length = d.txns.length + 1 ∧
      handler env2 (handler env d (some ⟨t, "buy"⟩)).db (some ⟨t, "buy"⟩) =
        ⟨.ok "Alert processed (no action)",
          (handler env d (some ⟨t, "buy"⟩)).db, []⟩) := by
  constructor
  · intro env d a hv hdup
    rw [handler_valid_some env d a hv, handlerValid_dedup env d a hdup]
  · intro env env2 d t b ps ps2 hv hdup hb hfl hoo hps hp hbc hszpos hfund hplace hpa
    have h1 := handler_firstBuy env d t b ps ps2 hv hdup hb hfl hoo hps hp hbc
      hszpos hfund hplace hpa
    refine ⟨by simp [h1], by simp [h1], ?_⟩
    rw [h1]
    rw [handler_valid_some env2 _ ⟨t, "buy"⟩ hv]
    exact handlerValid_dedup env2 _ ⟨t, "buy"⟩ (by simp)

/-- Witness for C1: the spec's sample scenario (balance 100, price 10, lot
step 0.1): the first buy submits one order and one transaction and the
repeated identical call is a no-op. -/
theorem C1_witness :
    (handler env0 db0 (some ⟨"BTCUSDT", "buy"⟩)).orders.length = 1 ∧
    (handler env0 db0 (some ⟨"BTCUSDT", "buy"⟩)).db.txns.length =
      db0.txns.length + 1 ∧
    handler env0 (handler env0 db0 (some ⟨"BTCUSDT", "buy"⟩)).db
        (some ⟨"BTCUSDT", "buy"⟩) =
      ⟨.ok "Alert processed (no action)",
        (handler env0 db0 (some ⟨"BTCUSDT", "buy"⟩)).db, []⟩ :=
  C1_dedup_idempotent.2 env0 env0 db0 "BTCUSDT" 100 (fun _ => some 0)
    (fun _ => some 10) (by decide) (by simp [db0]) rfl (by norm_num) rfl rfl
    (by norm_num [env0])
    (by simp [buyCountOf, db0, defaultPairs])
    (by norm_num [env0, lotSizeFor, normalizeSize, applyMinNotional, roundToLot,
      truncQ, minOrderValueUSDT])
    (by norm_num [env0, lotSizeFor, normalizeSize, applyMinNotional, roundToLot,
      truncQ, minOrderValueUSDT])
    rfl rfl

/-- C2: on a buy signal for a configured ticker when no configured
instrument holds the "buy" state (buyCount = 0), the computed raw order
size is the entire available balance divided by the price — not the
equal-split formula — and the submitted order is a single buy of that raw
size after normalization. -/
theorem C2_first_buy_full_balance (env : Env) (d : DB) (t : String) (b : ℚ)
    (ps ps2 : String → Option ℚ)
    (hv : isValidTicker t = true)
    (hdup : ¬ (d.states t).signal = "buy")
    (hb : env.spotBalance = some b) (hfl : ¬ b < 2877 / 100)
    (hoo : env.openOrders = some false) (hps : env.positions = some ps)
    (hp : ¬ env.price t = 0) (hbc : buyCountOf d = 0)
    (hszpos : 0 < normalizeSize (env.price t) (lotSizeFor env t) (b / env.price t))
    (hfund : ¬ b < normalizeSize (env.price t) (lotSizeFor env t) (b / env.price t) *
      env.price t)
    (hplace : env.placeOrder "buy"
      (normalizeSize (env.price t) (lotSizeFor env t) (b / env.price t)) = true)
    (hpa : env.positionsAfter = some ps2) :
    (buyRawStage env t b (b + totalCryptoValue ps env.price) (env.price t)
      (lotSizeFor env t) (d.states t).position 0).size = b / env.price t ∧
    (handler env d (some ⟨t, "buy"⟩)).orders =
      [⟨t, "buy", normalizeSize (env.price t) (lotSizeFor env t) (b / env.price t),
        lotSizeFor env t⟩] := by
  refine ⟨by rw [buyRawStage_first], ?_⟩
  rw [handler_firstBuy env d t b ps ps2 hv hdup hb hfl hoo hps hp hbc
    hszpos hfund hplace hpa]

/-- Witness for C2 on the SOLUSDT pair: raw size 100/10 = 10, one buy of
the normalized size submitted. -/
theorem C2_witness :
    (buyRawStage env0 "SOLUSDT" 100
      (100 + totalCryptoValue (fun _ => some 0) env0.price) (env0.price "SOLUSDT")
      (lotSizeFor env0 "SOLUSDT") (db0.states "SOLUSDT").position 0).size =
      100 / env0.price "SOLUSDT" ∧
    (handler env0 db0 (some ⟨"SOLUSDT", "buy"⟩)).orders =
      [⟨"SOLUSDT", "buy",
        normalizeSize (env0.price "SOLUSDT") (lotSizeFor env0 "SOLUSDT")
          (100 / env0.price "SOLUSDT"), lotSizeFor env0 "SOLUSDT"⟩] :=
  C2_first_buy_full_balance env0 db0 "SOLUSDT" 100 (fun _ => some 0)
    (fun _ => some 10) (by decide) (by simp [db0]) rfl (by norm_num) rfl rfl
    (by norm_num [env0])
    (by simp [buyCountOf, db0, defaultPairs])
    (by norm_num [env0, lotSizeFor, normalizeSize, applyMinNotional, roundToLot,
      truncQ, minOrderValueUSDT])
    (by norm_num [env0, lotSizeFor, normalizeSize, applyMinNotional, roundToLot,
      truncQ, minOrderValueUSDT])
    rfl rfl

/-- Store for the C10 theorems: SOLUSDT sold but holding 2 units,
TONUSDT in the "buy" state (buyCount = 1). -/
def dbC10 : DB :=
  ⟨fun s => if s = "SOLUSDT" then ⟨"sell", 2⟩
    else if s = "TONUSDT" then ⟨"buy", 0⟩ else ⟨"sell", 0⟩, [], []⟩

/-- Exchange for the C10 theorems: balance 50, price 5 everywhere,
lot step 0.1, SOLUSDT position 2, every order accepted. -/
def envC10 : Env :=
  { spotBalance := some 50, openOrders := some false,
    positions := some fun p => if p = "SOLUSDT" then some 2 else none,
    price := fun _ => 5, lotSizes := fun _ => some (1 / 10),
    placeOrder := fun _ _ => true,
    positionsAfter := some fun _ => some 2,
    spotBalanceAfter := some 40, priceAfter := fun _ => 5 }

/-- Counterexample to C10 as stated: buy signal on SOLUSDT with buyCount
1, position 2 and target position 6 (non-zero, not above target).  The
claim says no order, no transaction and unchanged state; in fact the raw
size 0 is raised to the minimum-notional size 2 and a buy of 2 IS
submitted, a transaction recorded, and the stored signal flipped to
"buy". -/
theorem C10_counterexample :
    buyCountOf dbC10 = 1 ∧
    (dbC10.states "SOLUSDT") = ⟨"sell", 2⟩ ∧
    (handler envC10 dbC10 (some ⟨"SOLUSDT", "buy"⟩)).orders =
      [⟨"SOLUSDT", "buy", 2, 1 / 10⟩] ∧
    (handler envC10 dbC10 (some ⟨"SOLUSDT", "buy"⟩)).db.txns =
      [⟨"SOLUSDT", "buy", 2, 5, 10⟩] ∧
    (handler envC10 dbC10 (some ⟨"SOLUSDT", "buy"⟩)).db.states "SOLUSDT" =
      ⟨"buy", 2⟩ ∧
    (handler envC10 dbC10 (some ⟨"SOLUSDT", "buy"⟩)).resp =
      .ok "Alert processed" := by
  norm_num +decide [handler, handlerValid, handlerCore, buyStage, buyRawStage,
    buyFinish, sellStage, epilogue, addTxns, setState, spotAfter, normalizeSize,
    applyMinNotional, roundToLot, truncQ, minOrderValueUSDT, lotCheckFails,
    gomod1, lotSizeFor, totalCryptoValue, buyCountOf, defaultPairs,
    isValidTicker, envC10, dbC10]

/-- C10 (amended): in the equal-split branch with a non-zero stored
position not above the target position, the raw size stays 0 but the
shared minimum-notional raise lifts it to the minimum order size, so
(when the funds check passes and the exchange accepts) a buy of
`normalizeSize price lot 0` IS submitted, a transaction IS recorded, the
state row IS updated to ("buy", re-queried position), and the handler
responds with success — so the deduplication guard DOES engage for the
next identical buy signal. -/
theorem C10_below_target_min_buy (env : Env) (d : DB) (t : String) (b : ℚ)
    (ps ps2 : String → Option ℚ)
    (hv : isValidTicker t = true)
    (hdup : ¬ (d.states t).signal = "buy")
    (hb : env.spotBalance = some b) (hfl : ¬ b < 2877 / 100)
    (hoo : env.openOrders = some false) (hps : env.positions = some ps)
    (hp : ¬ env.price t = 0) (hn : ¬ buyCountOf d = 0)
    (hpos : 0 < (d.states t).position)
    (hnotex : ¬ (b + totalCryptoValue ps env.price) / ((buyCountOf d : ℚ) + 1) /
      env.price t < (d.states t).position)
    (hszpos : 0 < normalizeSize (env.price t) (lotSizeFor env t) 0)
    (hfund : ¬ b < normalizeSize (env.price t) (lotSizeFor env t) 0 * env.price t)
    (hplace : env.placeOrder "buy"
      (normalizeSize (env.price t) (lotSizeFor env t) 0) = true)
    (hpa : env.positionsAfter = some ps2) :
    (handler env d (some ⟨t, "buy"⟩)).orders =
      [⟨t, "buy", normalizeSize (env.price t) (lotSizeFor env t) 0,
        lotSizeFor env t⟩] ∧
    (handler env d (some ⟨t, "buy"⟩)).db.txns =
      d.txns ++ [⟨t, "buy", normalizeSize (env.price t) (lotSizeFor env t) 0,
        env.price t, normalizeSize (env.price t) (lotSizeFor env t) 0 * env.price t⟩] ∧
    (handler env d (some ⟨t, "buy"⟩)).db.states t = ⟨"buy", (ps2 t).getD 0⟩ ∧
    (handler env d (some ⟨t, "buy"⟩)).resp = .ok "Alert processed" ∧
    (∀ env2 : Env, handler env2 (handler env d (some ⟨t, "buy"⟩)).db
        (some ⟨t, "buy"⟩) =
      ⟨.ok "Alert processed (no action)",
        (handler env d (some ⟨t, "buy"⟩)).db, []⟩) := by
  have h1 := handler_buy_belowTarget env d t b ps ps2 hv hdup hb hfl hoo hps hp
    hn hpos hnotex hszpos hfund hplace hpa
  refine ⟨by simp [h1], by simp [h1], by simp [h1], by simp [h1], fun env2 => ?_⟩
  rw [h1]
  rw [handler_valid_some env2 _ ⟨t, "buy"⟩ hv]
  exact handlerValid_dedup env2 _ ⟨t, "buy"⟩ (by simp)

/-- Witness for C10 (amended) at the concrete SOLUSDT scenario. -/
theorem C10_witness :
    (handler envC10 dbC10 (some ⟨"SOLUSDT", "buy"⟩)).orders =
      [⟨"SOLUSDT", "buy",
        normalizeSize (envC10.price "SOLUSDT") (lotSizeFor envC10 "SOLUSDT") 0,
        lotSizeFor envC10 "SOLUSDT"⟩] ∧
    (handler envC10 dbC10 (some ⟨"SOLUSDT", "buy"⟩)).db.states "SOLUSDT" =
      ⟨"buy", ((fun _ => some 2) "SOLUSDT" : Option ℚ).getD 0⟩ := by
  have h := C10_below_target_min_buy envC10 dbC10 "SOLUSDT" 50
    (fun p => if p = "SOLUSDT" then some 2 else none) (fun _ => some 2)
    (by decide) (by simp [dbC10]) rfl (by norm_num) rfl rfl
    (by norm_num [envC10])
    (by simp [buyCountOf, dbC10, defaultPairs])
    (by norm_num [dbC10])
    (by norm_num +decide [envC10, dbC10, totalCryptoValue, buyCountOf, defaultPairs])
    (by norm_num [envC10, lotSizeFor, normalizeSize, applyMinNotional, roundToLot,
      truncQ, minOrderValueUSDT])
    (by norm_num [envC10, lotSizeFor, normalizeSize, applyMinNotional, roundToLot,
      truncQ, minOrderValueUSDT])
    rfl rfl
  exact ⟨h.1, h.2.2.1⟩

/-- Store for the C3 counterexample: BTCUSDT sold but holding 1 unit,
TRXUSDT in the "buy" state (buyCount = 1). -/
def dbC3 : DB :=
  ⟨fun s => if s = "TRXUSDT" then ⟨"buy", 0⟩ else ⟨"sell", 1⟩, [], []⟩

/-- Exchange for the C3 counterexample: balance 100, price 10 everywhere,
lot step 0.1, BTCUSDT holding 1, every order accepted. -/
def envC3 : Env :=
  { spotBalance := some 100, openOrders := some false,
    positions := some fun p => if p = "BTCUSDT" then some 1 else none,
    price := fun _ => 10, lotSizes := fun _ => some (1 / 10),
    placeOrder := fun _ _ => true,
    positionsAfter := some fun _ => some 1,
    spotBalanceAfter := some 90, priceAfter := fun _ => 10 }

/-- Counterexample to C3 as stated: buyCount 1, available funds 110,
target position 11/2, current position 1 (non-zero, not above target).
The claim's "otherwise a buy order for the full target size is issued"
fails: the buy actually issued has size 1 (the minimum-notional size),
not the target size 11/2 (nor its normalization, also 11/2). -/
theorem C3_counterexample :
    buyCountOf dbC3 = 1 ∧
    (dbC3.states "BTCUSDT").position = 1 ∧
    (100 + totalCryptoValue (fun p => if p = "BTCUSDT" then some 1 else none)
      envC3.price) / ((1 : ℚ) + 1) / 10 = 11 / 2 ∧
    (handler envC3 dbC3 (some ⟨"BTCUSDT", "buy"⟩)).orders =
      [⟨"BTCUSDT", "buy", 1, 1 / 10⟩] ∧
    (1 : ℚ) ≠ 11 / 2 ∧ normalizeSize 10 (1 / 10) (11 / 2) = 11 / 2 := by
  norm_num +decide [handler, handlerValid, handlerCore, buyStage, buyRawStage,
    buyFinish, sellStage, epilogue, addTxns, setState, spotAfter, normalizeSize,
    applyMinNotional, roundToLot, truncQ, minOrderValueUSDT, lotCheckFails,
    gomod1, lotSizeFor, totalCryptoValue, buyCountOf, defaultPairs,
    isValidTicker, envC3, dbC3]

/-- C3 (amended): with buyCount = n ≥ 1, the target allocation is
availableFunds/(n+1) and the target position is availableFunds/(n+1)/price.
If the current position is zero, the raw buy size is the full target and
(checks passing) the buy submitted has the normalized target size.  If the
position is non-zero and above target, a sell of exactly
(position − target) is submitted, raw, before any normalization.  But if
the position is non-zero and not above target, the raw size is 0, and the
buy then submitted (checks passing) has the minimum-notional size
`normalizeSize price lot 0`, not the target size. -/
theorem C3_equal_split_sizes (env : Env) (t : String) (b af p lot pos : ℚ)
    (n : ℕ) (hn : ¬ n = 0) (hlot : 0 < lot) :
    (¬ 0 < pos →
      (buyRawStage env t b af p lot pos n).size = af / ((n : ℚ) + 1) / p ∧
      (0 < normalizeSize p lot (af / ((n : ℚ) + 1) / p) →
        ¬ b < normalizeSize p lot (af / ((n : ℚ) + 1) / p) * p →
        env.placeOrder "buy" (normalizeSize p lot (af / ((n : ℚ) + 1) / p)) = true →
        stageOrders (buyStage env t b af p lot pos n) =
          [⟨t, "buy", normalizeSize p lot (af / ((n : ℚ) + 1) / p), lot⟩])) ∧
    (0 < pos → af / ((n : ℚ) + 1) / p < pos →
      (buyRawStage env t b af p lot pos n).size = pos - af / ((n : ℚ) + 1) / p ∧
      (buyRawStage env t b af p lot pos n).orders =
        [⟨t, "sell", pos - af / ((n : ℚ) + 1) / p, lot⟩]) ∧
    (0 < pos → ¬ af / ((n : ℚ) + 1) / p < pos →
      (buyRawStage env t b af p lot pos n).size = 0 ∧
      (0 < normalizeSize p lot 0 → ¬ b < normalizeSize p lot 0 * p →
        env.placeOrder "buy" (normalizeSize p lot 0) = true →
        stageOrders (buyStage env t b af p lot pos n) =
          [⟨t, "buy", normalizeSize p lot 0, lot⟩])) := by
  refine ⟨fun hpos => ?_, fun hpos hex => buyRawStage_excess env t b af p lot pos n hn hpos hex,
    fun hpos hnotex => ?_⟩
  · rw [buyRawStage_zero_pos env t b af p lot pos n hn hpos]
    refine ⟨rfl, fun hszpos hfund hplace => ?_⟩
    unfold buyStage
    rw [buyRawStage_zero_pos env t b af p lot pos n hn hpos]
    rw [buyFinish_happy env t b p lot ⟨af / ((n : ℚ) + 1) / p, [], [], false, false⟩
      hlot hfund hszpos hplace]
    simp [stageOrders]
  · rw [buyRawStage_below_target env t b af p lot pos n hn hpos hnotex]
    refine ⟨rfl, fun hszpos hfund hplace => ?_⟩
    unfold buyStage
    rw [buyRawStage_below_target env t b af p lot pos n hn hpos hnotex]
    rw [buyFinish_happy env t b p lot ⟨0, [], [], false, false⟩
      hlot hfund hszpos hplace]
    simp [stageOrders]

/-- Witness for C3 (amended) in the excess branch: position 7 against a
target of 11/2 yields an immediate raw sell of 3/2. -/
theorem C3_witness :
    (buyRawStage env0 "BTCUSDT" 100 110 10 (1 / 10) 7 1).size =
      7 - 110 / ((1 : ℚ) + 1) / 10 ∧
    (buyRawStage env0 "BTCUSDT" 100 110 10 (1 / 10) 7 1).orders =
      [⟨"BTCUSDT", "sell", 7 - 110 / ((1 : ℚ) + 1) / 10, 1 / 10⟩] :=
  (C3_equal_split_sizes env0 "BTCUSDT" 100 110 10 (1 / 10) 7 1
    (by norm_num) (by norm_num)).2.1 (by norm_num) (by norm_num)

/-- Store for the C5 theorems: NEARUSDT bought with position 20. -/
def dbC5 : DB :=
  ⟨fun s => if s = "NEARUSDT" then ⟨"buy", 20⟩ else ⟨"sell", 0⟩, [], []⟩

/-- Exchange for the C5 counterexample: the post-order positions re-query
reports NEARUSDT still holding 5 (e.g. the limit order only partially
filled by the time of the re-query). -/
def envC5 : Env :=
  { spotBalance := some 100, openOrders := some false,
    positions := some fun _ => some 0,
    price := fun _ => 10, lotSizes := fun _ => some (1 / 10),
    placeOrder := fun _ _ => true,
    positionsAfter := some fun _ => some 5,
    spotBalanceAfter := some 150, priceAfter := fun _ => 10 }

/-- Exchange for the C5 witness: the post-order re-query reports the
position fully closed. -/
def envC5b : Env :=
  { spotBalance := some 100, openOrders := some false,
    positions := some fun _ => some 0,
    price := fun _ => 10, lotSizes := fun _ => some (1 / 10),
    placeOrder := fun _ _ => true,
    positionsAfter := some fun _ => some 0,
    spotBalanceAfter := some 300, priceAfter := fun _ => 10 }

/-- Counterexample to C5 as stated: a sell on a stored position of 20 does
submit a sell of 20 and succeeds, but the stored position afterwards is
the re-queried exchange value 5, not 0 — the code never forces 0. -/
theorem C5_counterexample :
    (dbC5.states "NEARUSDT").position = 20 ∧
    (handler envC5 dbC5 (some ⟨"NEARUSDT", "sell"⟩)).orders =
      [⟨"NEARUSDT", "sell", 20, 1 / 10⟩] ∧
    (handler envC5 dbC5 (some ⟨"NEARUSDT", "sell"⟩)).resp =
      .ok "Alert processed" ∧
    ((handler envC5 dbC5 (some ⟨"NEARUSDT", "sell"⟩)).db.states
      "NEARUSDT").position = 5 ∧
    (5 : ℚ) ≠ 0 := by
  norm_num +decide [handler, handlerValid, handlerCore, buyStage, buyRawStage,
    buyFinish, sellStage, epilogue, addTxns, setState, spotAfter, normalizeSize,
    applyMinNotional, roundToLot, truncQ, minOrderValueUSDT, lotCheckFails,
    gomod1, lotSizeFor, totalCryptoValue, buyCountOf, defaultPairs,
    isValidTicker, envC5, dbC5]

/-- C5 (amended): a sell signal on a stored position p > 0 submits a
single sell of `normalizeSize price lot p` (the entire position after
minimum-notional/lot normalization), and after the confirmed order the
stored row becomes ("sell", freshly re-queried exchange position): the
stored position is 0 exactly when the exchange re-query reports 0 (or the
ticker is absent, defaulting to 0), not unconditionally. -/
theorem C5_sell_entire_position (env : Env) (d : DB) (t : String) (b : ℚ)
    (ps ps2 : String → Option ℚ)
    (hv : isValidTicker t = true)
    (hdup : ¬ (d.states t).signal = "sell")
    (hb : env.spotBalance = some b) (hfl : ¬ b < 2877 / 100)
    (hoo : env.openOrders = some false) (hps : env.positions = some ps)
    (hp : ¬ env.price t = 0)
    (hpos : 0 < (d.states t).position)
    (hplace : env.placeOrder "sell"
      (normalizeSize (env.price t) (lotSizeFor env t) (d.states t).position) = true)
    (hpa : env.positionsAfter = some ps2) :
    (handler env d (some ⟨t, "sell"⟩)).orders =
      [⟨t, "sell",
        normalizeSize (env.price t) (lotSizeFor env t) (d.states t).position,
        lotSizeFor env t⟩] ∧
    (handler env d (some ⟨t, "sell"⟩)).db.states t =
      ⟨"sell", (ps2 t).getD 0⟩ ∧
    ((ps2 t).getD 0 = 0 →
      ((handler env d (some ⟨t, "sell"⟩)).db.states t).position = 0) := by
  have h1 := handler_sell_happy env d t b ps ps2 hv hdup hb hfl hoo hps hp
    hpos hplace hpa
  exact ⟨by simp [h1], by simp [h1], fun h => by simp [h1, h]⟩

/-- Witness for C5 (amended): stored position 20, the exchange re-query
reports 0, so the stored position becomes 0. -/
theorem C5_witness :
    (handler envC5b dbC5 (some ⟨"NEARUSDT", "sell"⟩)).orders =
      [⟨"NEARUSDT", "sell",
        normalizeSize (envC5b.price "NEARUSDT") (lotSizeFor envC5b "NEARUSDT")
          (dbC5.states "NEARUSDT").position, lotSizeFor envC5b "NEARUSDT"⟩] ∧
    ((handler envC5b dbC5 (some ⟨"NEARUSDT", "sell"⟩)).db.states
      "NEARUSDT").position = 0 := by
  have h := C5_sell_entire_position envC5b dbC5 "NEARUSDT" 100
    (fun _ => some 0) (fun _ => some 0)
    (by decide) (by simp [dbC5]) rfl (by norm_num) rfl rfl
    (by norm_num [envC5b]) (by norm_num [dbC5]) rfl rfl
  exact ⟨h.1, h.2.2 rfl⟩

/-- Store for the C4 counterexample: TRXUSDT bought with position 1/2. -/
def dbC4 : DB :=
  ⟨fun s => if s = "TRXUSDT" then ⟨"buy", 1 / 2⟩ else ⟨"sell", 0⟩, [], []⟩

/-- Exchange for the C4 counterexample: balance 100, price 3, lot step
0.1, every order accepted. -/
def envC4 : Env :=
  { spotBalance := some 100, openOrders := some false,
    positions := some fun _ => some 0,
    price := fun _ => 3, lotSizes := fun _ => some (1 / 10),
    placeOrder := fun _ _ => true,
    positionsAfter := some fun _ => some 0,
    spotBalanceAfter := some 110, priceAfter := fun _ => 3 }

/-- Counterexample to C4 as stated: selling the 1/2 position at price 3,
the raw size is raised to the minimum-notional size 10/3 and then rounded
DOWN to 33/10, whose notional 99/10 is BELOW the minimum order value 10 —
yet the order is submitted, not rejected, although a feasible size under
the balance existed (34/10 is a lot multiple with notional in [10, 100]). -/
theorem C4_counterexample :
    (handler envC4 dbC4 (some ⟨"TRXUSDT", "sell"⟩)).orders =
      [⟨"TRXUSDT", "sell", 33 / 10, 1 / 10⟩] ∧
    (handler envC4 dbC4 (some ⟨"TRXUSDT", "sell"⟩)).resp =
      .ok "Alert processed" ∧
    (33 / 10 : ℚ) * 3 < minOrderValueUSDT ∧
    (34 / 10 : ℚ) = ((34 : ℤ) : ℚ) * (1 / 10) ∧
    minOrderValueUSDT ≤ (34 / 10 : ℚ) * 3 ∧ (34 / 10 : ℚ) * 3 ≤ 100 := by
  norm_num +decide [handler, handlerValid, handlerCore, buyStage, buyRawStage,
    buyFinish, sellStage, epilogue, addTxns, setState, spotAfter, normalizeSize,
    applyMinNotional, roundToLot, truncQ, minOrderValueUSDT, lotCheckFails,
    gomod1, lotSizeFor, totalCryptoValue, buyCountOf, defaultPairs,
    isValidTicker, envC4, dbC4]

/-- C4 (amended): a below-minimum raw size is first raised to the
minimum-notional size; the submitted size is the largest multiple of the
lot step L not exceeding the RAISED size (a multiple of L, ≤ the raised
size, and maximal among such multiples).  Because of the round-down the
submitted notional can fall below the minimum order value — it is only
guaranteed to exceed (minimum − L·price) — and such an order is still
submitted.  On the buy path the order is rejected rather than submitted
whenever its notional would exceed the available balance: every buy order
the handler submits has notional ≤ the fetched balance. -/
theorem C4_size_normalization (p lot s : ℚ) (hp : 0 < p) (hlot : 0 < lot) :
    (∃ k : ℤ, normalizeSize p lot s = (k : ℚ) * lot) ∧
    normalizeSize p lot s ≤ applyMinNotional p s ∧
    (∀ k : ℤ, (k : ℚ) * lot ≤ applyMinNotional p s →
      (k : ℚ) * lot ≤ normalizeSize p lot s) ∧
    minOrderValueUSDT - lot * p < normalizeSize p lot s * p ∧
    (∀ (env : Env) (d : DB) (a : Alert) (b : ℚ), env.spotBalance = some b →
      ∀ o ∈ (handler env d (some a)).orders, o.side = "buy" →
        o.sz * env.price a.ticker ≤ b) := by
  have hnn := applyMinNotional_nonneg hp s
  exact ⟨roundToLot_isMultiple hlot hnn, roundToLot_le hlot hnn,
    fun k hk => roundToLot_maximal hlot hnn k hk,
    normalizeSize_notional_gt hp hlot s,
    fun env d a b hb => handler_buy_le env d a b hb⟩

/-- Witness for C4 (amended) at price 3, lot 0.1, raw size 1/2: the
normalized size is a lot multiple not exceeding the raised size, with
notional above 10 − 0.3. -/
theorem C4_witness :
    (∃ k : ℤ, normalizeSize 3 (1 / 10) (1 / 2) = (k : ℚ) * (1 / 10)) ∧
    normalizeSize 3 (1 / 10) (1 / 2) ≤ applyMinNotional 3 (1 / 2) ∧
    minOrderValueUSDT - (1 / 10) * 3 < normalizeSize 3 (1 / 10) (1 / 2) * 3 := by
  have h := C4_size_normalization 3 (1 / 10) (1 / 2) (by norm_num) (by norm_num)
  exact ⟨h.1, h.2.1, h.2.2.2.1⟩
